import Mathlib

/-!
Verification of the FastAPI chat/upload backend (`src/main.py`) against its
natural-language specification.

The embedding below is a shallow model of the Python source:
* `ConnectionManager` (src/main.py lines 39-59): the session registry is the
  Python list `active_connections`, modelled as a `List Session`; sessions are
  opaque handles, modelled as `Nat`.  `connect` appends (`list.append`),
  `disconnect` removes the first occurrence if present (`if w in l: l.remove(w)`),
  and `broadcast` iterates a snapshot copy (`list(self.active_connections)`),
  attempting one `send_text` per session; a raised send error is caught by the
  `except` branch, which only prints and leaves the registry untouched.
  The outcome of each `send_text` is supplied by a `SendOracle` parameter
  (`Except String Unit`), standing for the network: `.error e` models a raised
  exception with message `e`.
* `upload_photo` (lines 90-126): validates the declared content type against
  the allow-list, derives the extension via `os.path.splitext` (default
  `".jpg"` when empty), builds `uuid.uuid4().hex + ext` (the uuid hex is an
  input parameter, standing for the random generator), writes the payload and
  returns the response record.  The upload directory is an association list
  from filename to byte contents; `datetime.utcnow().isoformat()` is an input
  parameter `nowIso`.
* `list_photos` (lines 129-150): filters directory entries by
  `fname.lower().endswith((".jpg", ".jpeg", ".png"))`, maps each to a
  `{filename, url}` pair and sorts by filename (Python `list.sort` with a
  string key; Python string order is lexicographic by code point, as is
  Lean's `String ≤`).
-/

namespace ChatServer

/-- A session handle (one `WebSocket` object); identity is all that matters. -/
abbrev Session := Nat

namespace ConnectionManager

/-- Model of `connect` (src/main.py:43-46): `self.active_connections.append(websocket)`.
The `await websocket.accept()` handshake is outside the registry state. -/
def connect (w : Session) (st : List Session) : List Session :=
  st ++ [w]

/-- Model of `disconnect` (src/main.py:48-51):
`if websocket in self.active_connections: self.active_connections.remove(websocket)`.
Python `list.remove` deletes the first occurrence, i.e. `List.erase`. -/
def disconnect (w : Session) (st : List Session) : List Session :=
  if w ∈ st then st.erase w else st

/-- Outcome of one `send_text` attempt inside `broadcast`: either the send
returned normally, or it raised and the `except` branch caught error `err`. -/
inductive Attempt where
  | sent (s : Session)
  | failed (s : Session) (err : String)
deriving DecidableEq, Repr

/-- The session an attempt was addressed to. -/
def Attempt.sess : Attempt → Session
  | .sent s => s
  | .failed s _ => s

/-- The environment deciding whether `connection.send_text(message)` raises:
`.ok ()` is a normal return, `.error e` a raised exception with message `e`. -/
abbrev SendOracle := Session → String → Except String Unit

/-- One iteration of the `broadcast` loop body (src/main.py:56-59):
`try: await connection.send_text(message) except Exception as e: print(...)`.
Both branches fall through to the next iteration. -/
def sendOne (oracle : SendOracle) (message : String) (c : Session) : Attempt :=
  match oracle c message with
  | .ok _ => .sent c
  | .error e => .failed c e

/-- The `for connection in snapshot` loop of `broadcast`, threading the
registry state: neither the `try` nor the `except` branch mutates
`active_connections`, so the state passes through each iteration. -/
def broadcastLoop (oracle : SendOracle) (message : String) :
    List Session → List Session → List Attempt × List Session
  | [], st => ([], st)
  | c :: rest, st =>
    let a := sendOne oracle message c
    let (as, st') := broadcastLoop oracle message rest st
    (a :: as, st')

/-- Observable outcome of one `broadcast` call: the trace of delivery
attempts, in order, and the registry state when the call returns. -/
structure BroadcastResult where
  attempts : List Attempt
  registry : List Session
deriving DecidableEq, Repr

/-- Model of `broadcast` (src/main.py:53-59): iterates a snapshot copy
`list(self.active_connections)` front to back, attempting each send and
catching any exception. -/
def broadcast (oracle : SendOracle) (message : String) (st : List Session) :
    BroadcastResult :=
  let snapshot := st
  let (as, st') := broadcastLoop oracle message snapshot st
  ⟨as, st'⟩

end ConnectionManager

/-- One registry operation, for sequencing connects and disconnects. -/
inductive Op where
  | connect (w : Session)
  | disconnect (w : Session)
deriving DecidableEq, Repr

/-- Apply one operation to the registry. -/
def applyOp (o : Op) (st : List Session) : List Session :=
  match o with
  | .connect w => ConnectionManager.connect w st
  | .disconnect w => ConnectionManager.disconnect w st

/-- Apply a sequence of operations left to right. -/
def applyOps (ops : List Op) (st : List Session) : List Session :=
  ops.foldl (fun s o => applyOp o s) st

/-- Number of connect operations in a sequence. -/
def numConnects : List Op → Nat
  | [] => 0
  | .connect _ :: rest => numConnects rest + 1
  | .disconnect _ :: rest => numConnects rest

/-- Number of disconnect operations that found their session present in the
registry at the moment they ran, when the sequence is applied from `st`. -/
def matchingDisconnects : List Op → List Session → Nat
  | [], _ => 0
  | .connect w :: rest, st => matchingDisconnects rest (ConnectionManager.connect w st)
  | .disconnect w :: rest, st =>
    (if w ∈ st then 1 else 0) + matchingDisconnects rest (ConnectionManager.disconnect w st)

/-! ## Upload endpoint -/

/-- The allow-list of src/main.py:100:
`file.content_type not in ("image/jpeg", "image/png", "image/jpg")`. -/
def ALLOWED_TYPES : List String := ["image/jpeg", "image/png", "image/jpg"]

/-- Index of the last occurrence of `ch` in `l`, `-1` if absent
(Python `str.rfind`). -/
def rfindChar (ch : Char) (l : List Char) : Int :=
  l.enum.foldl (fun acc p => if p.2 = ch then (p.1 : Int) else acc) (-1)

/-- The extension component of CPython `os.path.splitext` (posixpath):
the suffix from the last `'.'`, provided that dot lies after the last `'/'`
and some non-dot character sits between them (leading dots of the basename
never start an extension). -/
def splitextExt (p : List Char) : List Char :=
  let sepIndex := rfindChar '/' p
  let dotIndex := rfindChar '.' p
  if decide (sepIndex < dotIndex) &&
      p.enum.any (fun q =>
        decide (sepIndex < (q.1 : Int)) && decide ((q.1 : Int) < dotIndex) &&
        decide (q.2 ≠ '.')) then
    p.drop dotIndex.toNat
  else
    []

/-- Model of `ext = os.path.splitext(file.filename)[1] or ".jpg"` (src/main.py:104):
Python `or` replaces the falsy empty string by the default. -/
def derivedExt (filename : String) : String :=
  let e := splitextExt filename.data
  if e = [] then ".jpg" else String.mk e

/-- The JSON object returned by `upload_photo` on success (src/main.py:121-126). -/
structure UploadResponse where
  filename : String
  url : String
  uploaded_at : String
  content_type : String
deriving DecidableEq, Repr

/-- The upload directory: filenames with their byte contents. -/
abbrev Dir := List (String × List Nat)

/-- Model of `open(file_path, "wb").write(contents)`: replace the contents if the name
exists, otherwise create the file. -/
def writeFile (dir : Dir) (name : String) (contents : List Nat) : Dir :=
  if dir.any (fun p => p.1 = name) then
    dir.map (fun p => if p.1 = name then (name, contents) else p)
  else
    dir ++ [(name, contents)]

/-- Model of `upload_photo` (src/main.py:90-126).  `uuidHex` stands for
`uuid.uuid4().hex` and `nowIso` for `datetime.utcnow().isoformat()`; both are
values the handler reads from its environment.  Returns the HTTP outcome
(`.error (status, detail)` models a raised `HTTPException`) together with the
resulting upload directory. -/
def upload_photo (uuidHex : String) (nowIso : String) (origFilename : String)
    (contentType : String) (contents : List Nat) (dir : Dir) :
    Except (Nat × String) UploadResponse × Dir :=
  if contentType ∉ ALLOWED_TYPES then
    (.error (400, "Invalid image type"), dir)
  else
    let ext := derivedExt origFilename
    let unique_name := uuidHex ++ ext
    let dir' := writeFile dir unique_name contents
    let url_path := "/images/" ++ unique_name
    let uploaded_at := nowIso ++ "Z"
    (.ok { filename := unique_name, url := url_path,
           uploaded_at := uploaded_at, content_type := contentType }, dir')

/-! ## Listing endpoint -/

/-- Model of `fname.lower().endswith((".jpg", ".jpeg", ".png"))` (src/main.py:139):
character-wise lowering (Python `str.lower`), then a suffix test against each
alternative of the tuple. -/
def isImageName (fname : String) : Bool :=
  let lowered := fname.data.map Char.toLower
  decide ((".jpg").data <:+ lowered) ||
  decide ((".jpeg").data <:+ lowered) ||
  decide ((".png").data <:+ lowered)

/-- The `{"filename": fname, "url": f"/images/{fname}"}` entry (src/main.py:140-145). -/
def photoEntry (fname : String) : String × String :=
  (fname, "/images/" ++ fname)

/-- Comparison used by `files.sort(key=lambda x: x["filename"])`
(src/main.py:148): lexicographic code-point order on the filename, which is
Python's string order and coincides with `String ≤` on `.data`. -/
def photoLe (a b : String × String) : Prop := a.1.data ≤ b.1.data

instance : DecidableRel photoLe := fun a b =>
  inferInstanceAs (Decidable (a.1.data ≤ b.1.data))

instance : IsTotal (String × String) photoLe := ⟨fun a b => le_total a.1.data b.1.data⟩

instance : IsTrans (String × String) photoLe := ⟨fun _ _ _ => le_trans⟩

/-- Model of `list_photos` (src/main.py:129-150): filter the directory listing to
image-looking names, build the entries, sort by filename.  The input is the
sequence of names `os.listdir` produced, in whatever order.  The sort is
modelled by insertion sort; since two entries with equal filenames are equal
(`photoEntry` is determined by the name), the output is independent of which
sorting algorithm Python uses. -/
def list_photos (names : List String) : List (String × String) :=
  ((names.filter isImageName).map photoEntry).insertionSort photoLe

/-! ## Helper lemmas about the broadcast loop -/

open ConnectionManager

lemma sess_sendOne (oracle : SendOracle) (m : String) (c : Session) :
    (sendOne oracle m c).sess = c := by
  unfold sendOne
  cases oracle c m <;> rfl

lemma broadcastLoop_fst (oracle : SendOracle) (m : String) (snap st : List Session) :
    (broadcastLoop oracle m snap st).1 = snap.map (sendOne oracle m) := by
  induction snap with
  | nil => rfl
  | cons c rest ih => simp [broadcastLoop, ih]

lemma broadcastLoop_snd (oracle : SendOracle) (m : String) (snap st : List Session) :
    (broadcastLoop oracle m snap st).2 = st := by
  induction snap with
  | nil => rfl
  | cons c rest ih => simp [broadcastLoop, ih]

lemma broadcast_attempts (oracle : SendOracle) (m : String) (st : List Session) :
    (broadcast oracle m st).attempts = st.map (sendOne oracle m) :=
  broadcastLoop_fst oracle m st st

lemma broadcast_attempts_sess (oracle : SendOracle) (m : String) (st : List Session) :
    (broadcast oracle m st).attempts.map Attempt.sess = st := by
  rw [broadcast_attempts, List.map_map]
  have h : Attempt.sess ∘ sendOne oracle m = id := funext fun c => sess_sendOne oracle m c
  rw [h, List.map_id]

lemma broadcast_registry (oracle : SendOracle) (m : String) (st : List Session) :
    (broadcast oracle m st).registry = st :=
  broadcastLoop_snd oracle m st st

/-- Length/count invariant for operation sequences, generalized over the
starting registry. -/
lemma applyOps_length_invariant (ops : List Op) (st : List Session) :
    (applyOps ops st).length + matchingDisconnects ops st = numConnects ops + st.length := by
  induction ops generalizing st with
  | nil =>
    show st.length + 0 = 0 + st.length
    omega
  | cons o rest ih =>
    cases o with
    | connect w =>
      show (applyOps rest (ConnectionManager.connect w st)).length +
          matchingDisconnects rest (ConnectionManager.connect w st) =
          numConnects rest + 1 + st.length
      have h := ih (ConnectionManager.connect w st)
      have hl : (ConnectionManager.connect w st).length = st.length + 1 := by
        simp [ConnectionManager.connect]
      omega
    | disconnect w =>
      show (applyOps rest (ConnectionManager.disconnect w st)).length +
          ((if w ∈ st then 1 else 0) +
            matchingDisconnects rest (ConnectionManager.disconnect w st)) =
          numConnects rest + st.length
      have h := ih (ConnectionManager.disconnect w st)
      by_cases hw : w ∈ st
      · have hl : (ConnectionManager.disconnect w st).length + 1 = st.length := by
          have hpos : 0 < st.length := List.length_pos.2 (by rintro rfl; simp at hw)
          have herase := List.length_erase_of_mem hw
          simp only [ConnectionManager.disconnect, if_pos hw]
          omega
        rw [if_pos hw]
        omega
      · have hd : ConnectionManager.disconnect w st = st := by
          simp [ConnectionManager.disconnect, hw]
        rw [hd] at h
        rw [if_neg hw, hd]
        omega

/-! ## Helper lemmas about rfind, splitext and image-name suffixes -/

/-- The `rfind` fold only ever returns `-1` or an index of `ch` in `l`. -/
lemma rfind_foldl_invariant (ch : Char) (l : List Char) (pairs : List (Nat × Char))
    (acc : Int) (hacc : acc = -1 ∨ (0 ≤ acc ∧ l[acc.toNat]? = some ch))
    (hpairs : ∀ q ∈ pairs, l[q.1]? = some q.2) :
    pairs.foldl (fun a p => if p.2 = ch then (p.1 : Int) else a) acc = -1 ∨
      (0 ≤ pairs.foldl (fun a p => if p.2 = ch then (p.1 : Int) else a) acc ∧
        l[(pairs.foldl (fun a p => if p.2 = ch then (p.1 : Int) else a) acc).toNat]? =
          some ch) := by
  induction pairs generalizing acc with
  | nil => exact hacc
  | cons q rest ih =>
    refine ih _ ?_ (fun r hr => hpairs r (List.mem_cons_of_mem q hr))
    show (if q.2 = ch then (q.1 : Int) else acc) = -1 ∨
      (0 ≤ (if q.2 = ch then (q.1 : Int) else acc) ∧
        l[(if q.2 = ch then (q.1 : Int) else acc).toNat]? = some ch)
    by_cases hq : q.2 = ch
    · rw [if_pos hq]
      right
      refine ⟨Int.ofNat_nonneg q.1, ?_⟩
      rw [Int.toNat_ofNat]
      rw [← hq]
      exact hpairs q (List.mem_cons_self q rest)
    · rw [if_neg hq]
      exact hacc

/-- Where `rfindChar` does not return `-1`, it points at an occurrence of `ch`. -/
lemma rfindChar_spec (ch : Char) (l : List Char) :
    rfindChar ch l = -1 ∨
      (0 ≤ rfindChar ch l ∧ l[(rfindChar ch l).toNat]? = some ch) := by
  refine rfind_foldl_invariant ch l l.enum (-1) (Or.inl rfl) (fun q hq => ?_)
  exact List.mem_enum_iff_getElem?.1 hq

/-- A nonempty `splitext` extension starts with the dot it was cut at. -/
lemma splitextExt_eq_dot_cons (p : List Char) (h : splitextExt p ≠ []) :
    ∃ t, splitextExt p = '.' :: t := by
  simp only [splitextExt] at h ⊢
  split_ifs at h ⊢ with hc
  · have hdot := rfindChar_spec '.' p
    have hsep := rfindChar_spec '/' p
    rw [Bool.and_eq_true, decide_eq_true_eq] at hc
    have hlt : rfindChar '/' p < rfindChar '.' p := hc.1
    have hge : -1 ≤ rfindChar '/' p := by
      rcases hsep with h1 | h1
      · omega
      · omega
    rcases hdot with h1 | h1
    · omega
    · rcases h1 with ⟨hpos, hget⟩
      rw [List.getElem?_eq_some_iff] at hget
      rcases hget with ⟨hlen, hval⟩
      rw [List.drop_eq_getElem_cons hlen, hval]
      exact ⟨_, rfl⟩
  · exact absurd rfl h

/-- If a non-image extension `E` starting with a dot does not carry image
suffix `v` (also dot-initial, with no further dot), then neither does any
string ending in `E`. -/
lemma not_suffix_append_ext (U E v : List Char)
    (hE : ∃ t, E = '.' :: t)
    (hv : ∃ w, v = '.' :: w ∧ '.' ∉ w)
    (hnots : ¬ v <:+ E) :
    ¬ v <:+ U ++ E := by
  intro hsuf
  obtain ⟨t, rfl⟩ := hE
  obtain ⟨w, rfl, hw⟩ := hv
  have hEsuf : ('.' :: t) <:+ U ++ ('.' :: t) := List.suffix_append U _
  rcases Nat.le_total (('.' :: w).length) (('.' :: t).length) with hle | hle
  · exact hnots (List.suffix_of_suffix_length_le hsuf hEsuf hle)
  · rcases Nat.lt_or_ge (('.' :: t).length) (('.' :: w).length) with hlt | hge
    · have hwsuf : w <:+ ('.' :: w) := List.suffix_cons '.' w
      have hEv : ('.' :: t) <:+ ('.' :: w) :=
        List.suffix_of_suffix_length_le hEsuf hsuf hle
      have hEw : ('.' :: t) <:+ w := by
        refine List.suffix_of_suffix_length_le hEv hwsuf ?_
        simp only [List.length_cons] at hlt ⊢
        omega
      exact hw (hEw.subset (List.mem_cons_self '.' t))
    · have heq : ('.' :: t) = ('.' :: w) := by
        have hEv : ('.' :: t) <:+ ('.' :: w) :=
          List.suffix_of_suffix_length_le hEsuf hsuf hle
        exact hEv.eq_of_length (Nat.le_antisymm hle hge)
      exact hnots (heq ▸ List.suffix_refl ('.' :: w))

/-- Appending a dot-initial, non-image extension to any string yields a name
that still fails the listing's image filter. -/
lemma isImageName_append_of_not (u ext : String)
    (hhead : ∃ t, ext.data = '.' :: t)
    (himg : isImageName ext = false) :
    isImageName (u ++ ext) = false := by
  obtain ⟨t, ht⟩ := hhead
  simp only [isImageName, Bool.or_eq_false_iff, decide_eq_false_iff_not] at himg ⊢
  obtain ⟨⟨h1, h2⟩, h3⟩ := himg
  have hdata : (u ++ ext).data.map Char.toLower =
      u.data.map Char.toLower ++ ext.data.map Char.toLower := by
    rw [String.data_append, List.map_append]
  have hEdot : ∃ t', ext.data.map Char.toLower = '.' :: t' := by
    rw [ht]
    exact ⟨t.map Char.toLower, rfl⟩
  rw [hdata]
  refine ⟨⟨?_, ?_⟩, ?_⟩
  · exact not_suffix_append_ext _ _ _ hEdot ⟨"jpg".data, rfl, by decide⟩ h1
  · exact not_suffix_append_ext _ _ _ hEdot ⟨"jpeg".data, rfl, by decide⟩ h2
  · exact not_suffix_append_ext _ _ _ hEdot ⟨"png".data, rfl, by decide⟩ h3

/-- Every entry produced by `list_photos` passed the image-name filter. -/
lemma mem_list_photos_isImage {names : List String} {pr : String × String}
    (h : pr ∈ list_photos names) : isImageName pr.1 = true := by
  rw [list_photos] at h
  have hmem := (List.perm_insertionSort photoLe
    ((names.filter isImageName).map photoEntry)).mem_iff.1 h
  rcases List.mem_map.1 hmem with ⟨x, hx, hpe⟩
  rcases List.mem_filter.1 hx with ⟨_, him⟩
  have h1 : x = pr.1 := congrArg Prod.fst hpe
  rwa [h1] at him

/-- Lemma: `writeFile` always leaves the written name present in the directory. -/
lemma mem_writeFile (dir : Dir) (name : String) (contents : List Nat) :
    name ∈ (writeFile dir name contents).map Prod.fst := by
  unfold writeFile
  split_ifs with h
  · rw [List.any_eq_true] at h
    rcases h with ⟨p, hp, hpeq⟩
    simp only [decide_eq_true_eq] at hpeq
    refine List.mem_map.2 ⟨(name, contents), List.mem_map.2 ⟨p, hp, ?_⟩, rfl⟩
    simp [hpeq]
  · simp

/-! ## Claim theorems: connection manager -/

/-- The statement of claim C1, in the spec's words: a per-session send failure
causes that session to be deregistered from the registry, so it is absent from
the registry once the broadcast returns. -/
def sendFailureDeregisters : Prop :=
  ∀ (oracle : SendOracle) (message : String) (st : List Session) (s : Session) (e : String),
    s ∈ st → oracle s message = .error e →
    s ∉ (broadcast oracle message st).registry

/-- C1 (counterexample): with the single registered session `0` whose send
raises, the session is still in the registry after `broadcast` — the `except`
branch of src/main.py:58-59 only prints; it never calls `disconnect`. -/
theorem C1_counterexample_failed_send_not_deregistered : ¬ sendFailureDeregisters := by
  intro h
  exact h (fun _ _ => .error "boom") "hello" [0] 0 "boom" (by decide) rfl (by decide)

/-- C1 (amended): on a per-session send failure the failure is caught — the
failed attempt is recorded in the trace and every snapshot session still gets
exactly one attempt — but the failed session is NOT deregistered: it remains in
the registry and receives an attempt again at the next broadcast. -/
theorem C1_amended_failed_session_stays_registered
    (oracle oracle2 : SendOracle) (message message2 : String)
    (st : List Session) (s : Session) (e : String)
    (hmem : s ∈ st) (hfail : oracle s message = .error e) :
    Attempt.failed s e ∈ (broadcast oracle message st).attempts ∧
    (broadcast oracle message st).attempts.map Attempt.sess = st ∧
    s ∈ (broadcast oracle message st).registry ∧
    s ∈ (broadcast oracle2 message2
          ((broadcast oracle message st).registry)).attempts.map Attempt.sess := by
  have hreg := broadcast_registry oracle message st
  refine ⟨?_, broadcast_attempts_sess oracle message st, ?_, ?_⟩
  · rw [broadcast_attempts]
    exact List.mem_map.2 ⟨s, hmem, by simp [sendOne, hfail]⟩
  · rw [hreg]; exact hmem
  · rw [broadcast_attempts_sess, hreg]; exact hmem

/-- Witness for the amended C1 at a concrete input. -/
theorem C1_amended_witness :
    Attempt.failed 0 "boom" ∈
      (broadcast (fun _ _ => .error "boom") "hello" [0]).attempts ∧
    0 ∈ (broadcast (fun _ _ => .error "boom") "hello" [0]).registry :=
  ⟨(C1_amended_failed_session_stays_registered (fun _ _ => .error "boom")
      (fun _ _ => .ok ()) "hello" "x" [0] 0 "boom" (by decide) rfl).1,
   (C1_amended_failed_session_stays_registered (fun _ _ => .error "boom")
      (fun _ _ => .ok ()) "hello" "x" [0] 0 "boom" (by decide) rfl).2.2.1⟩

/-- C2: `broadcast` performs exactly one send attempt per session of the
snapshot taken at the start of the call, in snapshot order — no session is
skipped and none is attempted twice, whatever the send outcomes are.  The
model is a total function, reflecting that the only fallible operation,
`send_text`, sits inside `try/except Exception`, so no exception propagates
and the call always completes. -/
theorem C2_broadcast_one_attempt_per_snapshot_session
    (oracle : SendOracle) (message : String) (st : List Session) :
    (broadcast oracle message st).attempts.map Attempt.sess = st ∧
    ∀ s : Session,
      (broadcast oracle message st).attempts.countP (fun a => a.sess == s) = st.count s := by
  refine ⟨broadcast_attempts_sess oracle message st, fun s => ?_⟩
  have h := broadcast_attempts_sess oracle message st
  calc (broadcast oracle message st).attempts.countP (fun a => a.sess == s)
      = ((broadcast oracle message st).attempts.map Attempt.sess).countP (· == s) := by
        rw [List.countP_map]; rfl
    _ = st.count s := by rw [h]; rfl

/-- C8: broadcast never modifies the registry: the list of active connections
is identical before and after the call, even when sends fail — neither branch
of the loop body touches `active_connections`. -/
theorem C8_broadcast_preserves_registry
    (oracle : SendOracle) (message : String) (st : List Session) :
    (broadcast oracle message st).registry = st :=
  broadcast_registry oracle message st

/-- C10: delivery attempts are made deterministically in registration order:
`connect` appends at the end of the list, and `broadcast` iterates a snapshot
of that list front to back, so the attempted sessions are exactly the registry
list in order. -/
theorem C10_broadcast_in_registration_order
    (oracle : SendOracle) (message : String) (st : List Session) (w : Session) :
    (broadcast oracle message st).attempts.map Attempt.sess = st ∧
    ConnectionManager.connect w st = st ++ [w] :=
  ⟨broadcast_attempts_sess oracle message st, rfl⟩

/-- C3: for every sequence of connect/disconnect operations from the empty
registry, the final active count is the number of connects minus the number of
disconnects that found their session present; each connect increases the count
by exactly one; disconnecting an absent session is a no-op. -/
theorem C3_registry_count_invariant (ops : List Op) :
    (applyOps ops []).length = numConnects ops - matchingDisconnects ops [] ∧
    matchingDisconnects ops [] ≤ numConnects ops ∧
    (∀ (w : Session) (st : List Session),
      (ConnectionManager.connect w st).length = st.length + 1) ∧
    (∀ (w : Session) (st : List Session), w ∉ st →
      ConnectionManager.disconnect w st = st) := by
  have h := applyOps_length_invariant ops []
  simp only [List.length_nil] at h
  refine ⟨by omega, by omega, fun w st => ?_, fun w st hw => ?_⟩
  · simp [ConnectionManager.connect]
  · simp [ConnectionManager.disconnect, hw]

/-- Witness for C3 at a concrete operation sequence: two connects, one
matching disconnect, one unmatched disconnect; and a disconnect of an absent
session. -/
theorem C3_witness :
    (applyOps [Op.connect 0, Op.connect 1, Op.disconnect 0, Op.disconnect 0] []).length =
      numConnects [Op.connect 0, Op.connect 1, Op.disconnect 0, Op.disconnect 0] -
        matchingDisconnects [Op.connect 0, Op.connect 1, Op.disconnect 0, Op.disconnect 0] [] ∧
    ConnectionManager.disconnect 2 [0, 1] = [0, 1] :=
  ⟨(C3_registry_count_invariant
      [Op.connect 0, Op.connect 1, Op.disconnect 0, Op.disconnect 0]).1,
   (C3_registry_count_invariant []).2.2.2 2 [0, 1] (by decide)⟩

/-- The statement of claim C4: `disconnect` is idempotent on every registry
state. -/
def deregisterIdempotentOnAllStates : Prop :=
  ∀ (w : Session) (st : List Session),
    ConnectionManager.disconnect w (ConnectionManager.disconnect w st) =
      ConnectionManager.disconnect w st

/-- C4 (counterexample): on the registry `[0, 0]` (the session appearing
twice), Python `list.remove` deletes only the first occurrence, so a second
`disconnect` removes the second copy: two calls are not the same as one. -/
theorem C4_counterexample_duplicate_state : ¬ deregisterIdempotentOnAllStates := by
  intro h
  exact absurd (h 0 [0, 0]) (by decide)

/-- C4 (amended): on every registry state in which the session appears at most
once — the only states the lifecycle produces, since a session object is
appended once at connection time — `disconnect` is idempotent, and
disconnecting an absent session is a no-op that raises no error. -/
theorem C4_amended_deregister_idempotent (w : Session) (st : List Session) :
    (st.count w ≤ 1 →
      ConnectionManager.disconnect w (ConnectionManager.disconnect w st) =
        ConnectionManager.disconnect w st) ∧
    (w ∉ st → ConnectionManager.disconnect w st = st) := by
  constructor
  · intro hcount
    by_cases hw : w ∈ st
    · have h1 : ConnectionManager.disconnect w st = st.erase w := by
        simp [ConnectionManager.disconnect, hw]
      have hnot : w ∉ st.erase w := by
        rw [← List.count_eq_zero, List.count_erase_self]
        have : 0 < st.count w := List.count_pos_iff.2 hw
        omega
      rw [h1]
      simp [ConnectionManager.disconnect, hnot]
    · have h1 : ConnectionManager.disconnect w st = st := by
        simp [ConnectionManager.disconnect, hw]
      rw [h1, h1]
  · intro hw
    simp [ConnectionManager.disconnect, hw]

/-- Witness for the amended C4 at a concrete input. -/
theorem C4_amended_witness :
    ConnectionManager.disconnect 1 (ConnectionManager.disconnect 1 [0]) =
      ConnectionManager.disconnect 1 [0] ∧
    ConnectionManager.disconnect 1 [0] = [0] :=
  ⟨(C4_amended_deregister_idempotent 1 [0]).1 (by decide),
   (C4_amended_deregister_idempotent 1 [0]).2 (by decide)⟩

/-! ## Claim theorems: upload endpoint -/

/-- Writing under a name absent from the directory appends a new file. -/
lemma writeFile_fresh (dir : Dir) (name : String) (contents : List Nat)
    (h : name ∉ dir.map Prod.fst) :
    writeFile dir name contents = dir ++ [(name, contents)] := by
  have hany : dir.any (fun p => p.1 = name) = false := by
    rw [List.any_eq_false]
    intro p hp
    simp only [decide_eq_true_eq]
    intro heq
    exact h (List.mem_map.2 ⟨p, hp, heq⟩)
  simp [writeFile, hany]

/-- C5: an upload whose declared content type is outside the allow-list is
rejected with a 400 error carrying the detail string, and the upload directory
is unchanged — the `HTTPException` is raised before any write
(src/main.py:100-101). -/
theorem C5_upload_rejects_disallowed_content_type
    (uuidHex nowIso origFilename contentType : String) (contents : List Nat) (dir : Dir)
    (h : contentType ∉ ALLOWED_TYPES) :
    upload_photo uuidHex nowIso origFilename contentType contents dir =
      (.error (400, "Invalid image type"), dir) := by
  simp [upload_photo, h]

/-- Witness for C5 at the spec's example `content_type = "application/pdf"`. -/
theorem C5_witness :
    upload_photo "u0" "t0" "doc.pdf" "application/pdf" [1, 2] [("a.jpg", [0])] =
      (.error (400, "Invalid image type"), [("a.jpg", [0])]) :=
  C5_upload_rejects_disallowed_content_type "u0" "t0" "doc.pdf" "application/pdf"
    [1, 2] [("a.jpg", [0])] (by decide)

/-- C7: an accepted upload stores the full payload under the generated name
`uuid hex ++ extension`, where the extension is derived from the original
filename (`".jpg"` by default when it has none); provided the generated uuid
is fresh (the code relies on negligible collision probability of `uuid4`),
the stored name is unique versus all previously stored names; and the
response carries the generated filename, the access path
`/images/<filename>`, the timestamp `utcnow().isoformat() + "Z"`, and the
declared content type. -/
theorem C7_upload_accept_descriptor
    (uuidHex nowIso origFilename contentType : String) (contents : List Nat) (dir : Dir)
    (hct : contentType ∈ ALLOWED_TYPES)
    (hfresh : uuidHex ++ derivedExt origFilename ∉ dir.map Prod.fst) :
    upload_photo uuidHex nowIso origFilename contentType contents dir =
      (.ok { filename := uuidHex ++ derivedExt origFilename,
             url := "/images/" ++ (uuidHex ++ derivedExt origFilename),
             uploaded_at := nowIso ++ "Z",
             content_type := contentType },
       dir ++ [(uuidHex ++ derivedExt origFilename, contents)]) ∧
    uuidHex ++ derivedExt origFilename ∉ dir.map Prod.fst ∧
    (splitextExt origFilename.data = [] → derivedExt origFilename = ".jpg") ∧
    (splitextExt origFilename.data ≠ [] →
      derivedExt origFilename = String.mk (splitextExt origFilename.data)) := by
  refine ⟨?_, hfresh, fun h0 => by simp [derivedExt, h0], fun hne => by simp [derivedExt, hne]⟩
  rw [upload_photo, if_neg (not_not_intro hct)]
  simp only [writeFile_fresh dir (uuidHex ++ derivedExt origFilename) contents hfresh]

/-- C6: the listing returns exactly the entries for the directory names that
end, case-insensitively, in one of the image suffixes — each as a
`(filename, url)` pair with `url = "/images/" ++ filename` — sorted
lexicographically by filename (`String ≤` is code-point lexicographic order,
as in Python); on the spec's example files `b.png, a.jpg, c.jpeg` the result
is in the order `a.jpg, b.png, c.jpeg`. -/
theorem C6_listing_sorted_image_entries (names : List String) :
    (∀ fn url : String,
      (fn, url) ∈ list_photos names ↔
        fn ∈ names ∧ isImageName fn = true ∧ url = "/images/" ++ fn) ∧
    (list_photos names).Sorted (fun a b => a.1 ≤ b.1) ∧
    list_photos ["b.png", "a.jpg", "c.jpeg"] =
      [("a.jpg", "/images/a.jpg"), ("b.png", "/images/b.png"),
       ("c.jpeg", "/images/c.jpeg")] := by
  have hperm := List.perm_insertionSort photoLe ((names.filter isImageName).map photoEntry)
  refine ⟨fun fn url => ?_, ?_, by decide⟩
  · rw [list_photos, hperm.mem_iff]
    constructor
    · intro h
      rcases List.mem_map.1 h with ⟨x, hx, hpe⟩
      have h1 : x = fn := congrArg Prod.fst hpe
      have h2 : "/images/" ++ x = url := congrArg Prod.snd hpe
      subst h1
      rcases List.mem_filter.1 hx with ⟨hmem, him⟩
      exact ⟨hmem, him, h2.symm⟩
    · rintro ⟨hmem, him, rfl⟩
      exact List.mem_map.2 ⟨fn, List.mem_filter.2 ⟨hmem, him⟩, rfl⟩
  · have hs := List.sorted_insertionSort photoLe
      ((names.filter isImageName).map photoEntry)
    exact hs.imp fun h => String.le_iff_toList_le.mpr h

/-- C9: an accepted upload whose original filename carries a non-image
extension (one the listing's filter does not match, e.g. `.exe`) keeps that
extension: the stored name is the uuid hex followed by exactly that extension
and so ends with it, the stored name fails the listing's image filter, hence
it never appears in `list_photos` output for any directory listing — even
though the file was stored in the upload directory and the response points at
`/images/<filename>`, where the static mount byte-serves it. -/
theorem C9_nonimage_extension_stored_but_never_listed
    (uuidHex nowIso origFilename contentType : String) (contents : List Nat) (dir : Dir)
    (hct : contentType ∈ ALLOWED_TYPES)
    (hext : splitextExt origFilename.data ≠ [])
    (himg : isImageName (derivedExt origFilename) = false) :
    (upload_photo uuidHex nowIso origFilename contentType contents dir).1 =
      .ok { filename := uuidHex ++ derivedExt origFilename,
            url := "/images/" ++ (uuidHex ++ derivedExt origFilename),
            uploaded_at := nowIso ++ "Z",
            content_type := contentType } ∧
    (derivedExt origFilename).data <:+ (uuidHex ++ derivedExt origFilename).data ∧
    isImageName (uuidHex ++ derivedExt origFilename) = false ∧
    (∀ names : List String,
      uuidHex ++ derivedExt origFilename ∉ (list_photos names).map Prod.fst) ∧
    uuidHex ++ derivedExt origFilename ∈
      ((upload_photo uuidHex nowIso origFilename contentType contents dir).2).map
        Prod.fst := by
  have hd : derivedExt origFilename = String.mk (splitextExt origFilename.data) := by
    simp only [derivedExt]
    rw [if_neg hext]
  have hhead : ∃ t, (derivedExt origFilename).data = '.' :: t := by
    rcases splitextExt_eq_dot_cons origFilename.data hext with ⟨t, ht⟩
    exact ⟨t, by rw [hd]; exact ht⟩
  have hstored : isImageName (uuidHex ++ derivedExt origFilename) = false :=
    isImageName_append_of_not uuidHex (derivedExt origFilename) hhead himg
  refine ⟨?_, ?_, hstored, ?_, ?_⟩
  · rw [upload_photo, if_neg (not_not_intro hct)]
  · rw [String.data_append]
    exact List.suffix_append uuidHex.data (derivedExt origFilename).data
  · intro names hmem
    rcases List.mem_map.1 hmem with ⟨pr, hpr, hfst⟩
    have him := mem_list_photos_isImage hpr
    rw [hfst, hstored] at him
    exact Bool.false_ne_true him
  · rw [upload_photo, if_neg (not_not_intro hct)]
    exact mem_writeFile dir (uuidHex ++ derivedExt origFilename) contents

/-- Witness for C9 at the concrete upload of `evil.exe` with an allowed
content type. -/
theorem C9_witness :
    isImageName ("u1" ++ derivedExt "evil.exe") = false ∧
    "u1" ++ derivedExt "evil.exe" ∉
      (list_photos ["a.jpg", "u1" ++ derivedExt "evil.exe"]).map Prod.fst :=
  ⟨(C9_nonimage_extension_stored_but_never_listed "u1" "t0" "evil.exe" "image/jpeg"
      [1] [] (by decide) (by decide) (by decide)).2.2.1,
   (C9_nonimage_extension_stored_but_never_listed "u1" "t0" "evil.exe" "image/jpeg"
      [1] [] (by decide) (by decide) (by decide)).2.2.2.1
     ["a.jpg", "u1" ++ derivedExt "evil.exe"]⟩

/-- Witness for C7 at a concrete accepted upload. -/
theorem C7_witness :
    upload_photo "a1b2" "2026-01-01T00:00:00" "photo.png" "image/png" [7, 8]
        [("old.jpg", [1])] =
      (.ok { filename := "a1b2.png", url := "/images/a1b2.png",
             uploaded_at := "2026-01-01T00:00:00Z", content_type := "image/png" },
       [("old.jpg", [1]), ("a1b2.png", [7, 8])]) :=
  ((C7_upload_accept_descriptor "a1b2" "2026-01-01T00:00:00" "photo.png" "image/png"
      [7, 8] [("old.jpg", [1])] (by decide) (by decide)).1).trans (by
    rw [show derivedExt "photo.png" = ".png" from by decide]
    rfl)

end ChatServer
